import Mathlib

/-!
Verification of the trade-agent HS-code classification engine.

Shallow embedding of the classification core:
  - `llm_hs_classifier.py` : `LLMHSClassifier` (reasoning path, knowledge
    sampler, response parsing, keyword fallback);
  - `data_collection/classifier.py` : `classify_hs` (embedding path);
  - `data_collection/data_loader.py` : `load_hts_data` (catalog loader);
  - `trade_agent.py` : `TradeAgent.classify_product`.

External collaborators (the Groq chat completion service, the
sentence-transformer embedding model, the sklearn cosine-similarity routine,
and the JSON parser applied to the raw model output) are passed in as
function parameters, so theorems quantify over their behaviour and
counterexamples instantiate them with concrete values.  Python floats are
modelled as rationals.
-/

namespace TradeAgent

/-- A catalog row as used by `LLMHSClassifier` (keys `htsno`, `description`). -/
structure HSEntry where
  htsno : String
  description : String
deriving DecidableEq, Repr, Inhabited

/-- One element of the `matches` array of the parsed model output.  Every
field is optional: the code reads each one with `dict.get` and a default. -/
structure LLMMatch where
  hs_code : Option String
  confidence : Option ℚ
  reasoning : Option String
deriving DecidableEq, Repr

/-- A classification result dict as built by `_parse_llm_response` and
`_fallback_keyword_match` (keys `hs_code`, `description`, `confidence`,
`reasoning`). -/
structure HSResult where
  hs_code : String
  description : String
  confidence : ℚ
  reasoning : String
deriving DecidableEq, Repr

/-- A catalog row with a precomputed embedding, as consumed by
`classify_hs` (keys `htsno`, `description`, `embedding`). -/
structure EmbEntry where
  htsno : String
  description : String
  embedding : List ℚ
deriving DecidableEq, Repr

/-- A raw JSON object of the HTS source file: both keys may be absent
(the code reads them with `item.get`). -/
structure RawItem where
  htsno : Option String
  description : Option String
deriving DecidableEq, Repr

/-- An entry produced by `load_hts_data`: `htsno` is `item.get("htsno")`
(possibly absent), `description` is `item.get("description", "")`. -/
structure LoadedEntry where
  htsno : Option String
  description : String
deriving DecidableEq, Repr

/-- Accumulating splitter over a character list: cuts at whitespace and
drops empty pieces, like Python `str.split()` with no argument.  `acc`
holds the characters of the current word in reverse. -/
def wordsAux : List Char → List Char → List String
  | [], acc => if acc.isEmpty then [] else [String.mk acc.reverse]
  | c :: cs, acc =>
    if c.isWhitespace then
      if acc.isEmpty then wordsAux cs [] else String.mk acc.reverse :: wordsAux cs []
    else wordsAux cs (c :: acc)

/-- Lowercased word list of a string: models Python `s.lower().split()`
(lowercase, then split on whitespace runs, dropping empty pieces). -/
def words (s : String) : List String :=
  wordsAux (s.data.map Char.toLower) []

/-- Number of distinct shared lowercased words: models
`len(set(a.lower().split()) & set(b.lower().split()))` in
`_fallback_keyword_match`. -/
def overlapCount (a b : String) : ℕ :=
  (((words a).dedup).inter ((words b).dedup)).length

/-- Ordering used for the stable descending sort on overlap scores: models
`scored_entries.sort(key=lambda x: x[1], reverse=True)` (line 238).  Python
`list.sort` is a stable sort, and a stable sort for a total preorder is
extensionally unique, so the stable `List.insertionSort` below computes the
same list. -/
def scoreDescR : HSEntry × ℕ → HSEntry × ℕ → Prop := fun a b => b.2 ≤ a.2

instance : DecidableRel scoreDescR := fun a b => Nat.decLe b.2 a.2

instance : IsTotal (HSEntry × ℕ) scoreDescR := ⟨fun a b => le_total b.2 a.2⟩

instance : IsTrans (HSEntry × ℕ) scoreDescR :=
  ⟨fun _ _ _ hab hbc => le_trans hbc hab⟩

/-- `LLMHSClassifier._fallback_keyword_match` (llm_hs_classifier.py lines
223-250): score every catalog entry by distinct-word overlap with
`product_desc`, keep positive scores, sort stably by score descending and
return the first `top_n` rows with confidence `min(0.5, score * 0.1)` and a
fixed reasoning marker. -/
def fallback_keyword_match (db : List HSEntry) (product_desc : String) (top_n : ℕ) :
    List HSResult :=
  let scored := (db.map (fun e => (e, overlapCount product_desc e.description))).filter
    (fun p => decide (0 < p.2))
  let sorted := scored.insertionSort scoreDescR
  (sorted.take top_n).map (fun p =>
    { hs_code := p.1.htsno
      description := p.1.description
      confidence := min (1/2 : ℚ) ((p.2 : ℚ) * (1/10))
      reasoning := "Keyword-based match (fallback)" })

/-- `LLMHSClassifier._create_knowledge_sample` (lines 118-130), with the
hard-coded budget 120 kept as a parameter: if the database fits in the
budget return it whole, otherwise take `step = len // budget` and return
the entries at indices `0, step, 2*step, ...` below `len` — that is, the
Python comprehension `[db[i] for i in range(0, len(db), step)]`, which has
`(len + step - 1) / step` elements. -/
def create_knowledge_sample (db : List HSEntry) (budget : ℕ) : List HSEntry :=
  if db.length ≤ budget then db
  else
    let step := db.length / budget
    (List.range ((db.length + step - 1) / step)).filterMap (fun k => db[k * step]?)

/-- Enrichment of one parsed match (lines 198-214): read `hs_code`,
`confidence`, `reasoning` with defaults `""`, `0.5`, `""`; look up the first
catalog row whose `htsno` equals the code; the Python expression
`full_desc or "Description not found"` substitutes the marker when the
lookup fails or finds an empty description.  The coercion `float(confidence)`
keeps the parsed value unchanged — there is no clamping. -/
def enrichMatch (db : List HSEntry) (m : LLMMatch) : HSResult :=
  let hs_code := m.hs_code.getD ""
  let full_desc := ((db.find? (fun item => item.htsno == hs_code)).map
    HSEntry.description).getD ""
  { hs_code := hs_code
    description := if full_desc = "" then "Description not found" else full_desc
    confidence := m.confidence.getD (1/2)
    reasoning := m.reasoning.getD "" }

/-- `LLMHSClassifier._parse_llm_response` (lines 182-221).  The two-stage
JSON extraction (outermost brace span via regex, then the whole text) is an
external parser; `parsed` is its outcome: `some matches` when one of the
stages yields an object (its `matches` key read with default `[]`), `none`
when both fail.  On success the matches are truncated to `top_n` and
enriched in the order the model produced them; on failure the code calls
`self._fallback_keyword_match(response_text, top_n)` — note the argument is
the raw response text. -/
def parse_llm_response (db : List HSEntry) (parsed : Option (List LLMMatch))
    (response_text : String) (top_n : ℕ) : List HSResult :=
  match parsed with
  | some ms => (ms.take top_n).map (enrichMatch db)
  | none => fallback_keyword_match db response_text top_n

/-- The guard `not product_description or not product_description.strip()`
of `classify` (line 71): true exactly when every character of the string is
whitespace (in particular for the empty string). -/
def isBlank (s : String) : Bool := s.data.all Char.isWhitespace

/-- `LLMHSClassifier._build_system_prompt` (lines 132-144). -/
def system_prompt : String :=
  "You are an expert in international trade and HS (Harmonized System) code classification.\nYour role is to accurately classify products to their correct HS codes based on product descriptions.\n\nHS codes are standardized numerical codes used worldwide to classify traded products.\nEach code corresponds to a specific product category.\n\nYour task is to:\n1. Analyze the product description carefully\n2. Match it to the most appropriate HS codes from the provided database\n3. Provide confidence scores and reasoning for each match\n4. Return results in the exact JSON format specified"

/-- The catalog listing inside the user prompt:
`"\n".join(f"\x7bitem['htsno']\x7d: \x7bitem['description']\x7d" ...)`. -/
def hs_list_render (hs_sample : List HSEntry) : String :=
  String.intercalate "\n" (hs_sample.map (fun item => item.htsno ++ ": " ++ item.description))

/-- `LLMHSClassifier._build_user_prompt` (lines 146-180). -/
def build_user_prompt (product_desc : String) (hs_sample : List HSEntry) (top_n : ℕ) :
    String :=
  "Product Description to Classify:\n\"" ++ product_desc ++
  "\"\n\nAvailable HS Codes Database:\n" ++ hs_list_render hs_sample ++
  "\n\nTask: Classify the product to the top " ++ toString top_n ++
  " most appropriate HS codes.\n\nReturn your response in this EXACT JSON format:\n\x7b\n  \"matches\": [\n    \x7b\n      \"hs_code\": \"8518300000\",\n      \"confidence\": 0.95,\n      \"reasoning\": \"Brief explanation of why this code matches\"\n    \x7d\n  ]\n\x7d\n\nConsider:\n- Product material, function, and intended use\n- Industry standards for similar products\n- The hierarchy and specificity of HS codes\n\nReturn ONLY the JSON, no additional text."

/-- `LLMHSClassifier.classify` (lines 47-116).  `has_client` models whether
`self.groq_client` was initialized; `llm` is the external chat-completion
call taking the system and user prompts and returning the stripped response
text, `none` standing for a raised network/auth error (the surrounding
`try/except` turns it into an empty result); `parse_json` is the JSON
extraction applied to the raw response inside `_parse_llm_response`.  The
second component counts external text-generation invocations.  Guard order
follows the source: empty database, missing client, then empty or
whitespace-only description, each returning `[]` before any external call. -/
def classify (db : List HSEntry) (has_client : Bool)
    (llm : String → String → Option String)
    (parse_json : String → Option (List LLMMatch))
    (product_description : String) (top_n : ℕ) : List HSResult × ℕ :=
  if db = [] then ([], 0)
  else if has_client = false then ([], 0)
  else if isBlank product_description then ([], 0)
  else
    let sampled := create_knowledge_sample db 120
    let usr := build_user_prompt product_description sampled top_n
    match llm system_prompt usr with
    | none => ([], 1)
    | some raw_response =>
      (parse_llm_response db (parse_json raw_response) raw_response top_n, 1)

/-- Ordering used for the stable descending sort on similarities: models
`similarities.sort(key=lambda x: x[2], reverse=True)`
(data_collection/classifier.py line 38). -/
def simDescR : String × String × ℚ → String × String × ℚ → Prop :=
  fun a b => b.2.2 ≤ a.2.2

instance : DecidableRel simDescR := fun a b => Rat.instDecidableLe b.2.2 a.2.2

instance : IsTotal (String × String × ℚ) simDescR := ⟨fun a b => le_total b.2.2 a.2.2⟩

instance : IsTrans (String × String × ℚ) simDescR :=
  ⟨fun _ _ _ hab hbc => le_trans hbc hab⟩

/-- `classify_hs` (data_collection/classifier.py lines 21-41).  `encode` is
the external sentence-transformer embedding of the input description and
`sim` the cosine-similarity routine applied to the query embedding and each
stored entry embedding; both are external numeric collaborators.  The code
unconditionally encodes the description (one external invocation, counted
in the second component), scores every entry, sorts stably by similarity
descending and returns the first `top_n` triples. -/
def classify_hs (encode : String → List ℚ) (sim : List ℚ → List ℚ → ℚ)
    (product_description : String) (hs_entries : List EmbEntry) (top_n : ℕ) :
    List (String × String × ℚ) × ℕ :=
  let desc_embedding := encode product_description
  let similarities := hs_entries.map
    (fun entry => (entry.htsno, entry.description, sim desc_embedding entry.embedding))
  let sorted := similarities.insertionSort simDescR
  (sorted.take top_n, 1)

/-- `TradeAgent.classify_product` (trade_agent.py lines 51-63): an empty (or
missing) entry list short-circuits to `[]`, otherwise delegate to
`classify_hs`. -/
def classify_product (encode : String → List ℚ) (sim : List ℚ → List ℚ → ℚ)
    (product_description : String) (hs_entries : List EmbEntry) (top_n : ℕ) :
    List (String × String × ℚ) :=
  if hs_entries = [] then []
  else (classify_hs encode sim product_description hs_entries top_n).1

/-- Dot product of rational vectors.  For unit vectors the cosine similarity
`dot(a,b) / (norm(a) * norm(b))` computed by sklearn equals this dot
product, so it serves as an exact stand-in on unit-vector inputs. -/
def dotQ (a b : List ℚ) : ℚ := ((a.zip b).map (fun p => p.1 * p.2)).sum

/-- `load_hts_data` (data_collection/data_loader.py lines 9-24): keep only
items whose `description` key is present and truthy (a non-empty string),
and rebuild each kept item from `item.get("htsno")` and
`item.get("description", "")`. -/
def load_hts_data (hts_data : List RawItem) : List LoadedEntry :=
  (hts_data.filter (fun item => decide (item.description.getD "" ≠ ""))).map
    (fun item => { htsno := item.htsno, description := item.description.getD "" })

/-- `LLMHSClassifier._load_hts_database` (llm_hs_classifier.py lines 33-45):
on a successful read and JSON parse the data is returned unchanged — no
entry is dropped or rewritten; any failure (missing file, malformed JSON)
yields `[]`.  `parsed` is the outcome of the external file read and JSON
parse. -/
def load_hts_database (parsed : Option (List RawItem)) : List RawItem :=
  parsed.getD []

/-- Concrete one-row catalog used by witnesses and counterexamples. -/
def db1 : List HSEntry := [{ htsno := "8518300000", description := "phone device" }]

/-- Concrete 121-row catalog (one more row than the sampling budget). -/
def db121 : List HSEntry :=
  (List.range 121).map (fun _ => { htsno := "x", description := "y" })

set_option maxRecDepth 16000

/-! ## Helper lemmas -/

lemma fallback_keyword_match_length_le (db : List HSEntry) (d : String) (n : ℕ) :
    (fallback_keyword_match db d n).length ≤ n := by
  simp only [fallback_keyword_match, List.length_map, List.length_take]
  omega

lemma parse_llm_response_length_le (db : List HSEntry) (parsed : Option (List LLMMatch))
    (raw : String) (n : ℕ) : (parse_llm_response db parsed raw n).length ≤ n := by
  cases parsed with
  | none => simpa [parse_llm_response] using fallback_keyword_match_length_le db raw n
  | some ms =>
    simp only [parse_llm_response, List.length_map, List.length_take]
    omega

lemma filterMap_eq_map_of_some {α β : Type} (f : α → Option β) (g : α → β) :
    ∀ l : List α, (∀ x ∈ l, f x = some (g x)) → l.filterMap f = l.map g
  | [], _ => rfl
  | x :: xs, h => by
    simp only [List.filterMap_cons, h x (List.mem_cons_self x xs), List.map_cons]
    exact congrArg _ (filterMap_eq_map_of_some f g xs fun y hy =>
      h y (List.mem_cons_of_mem x hy))

/-- Stability of the stable sort, phrased on the returned prefix: if any two
elements satisfying `p` are related by `r` (for instance because they carry
the same sort key), the `p`-elements of `take n (insertionSort r l)` appear
as a sublist of the `p`-elements of `l`, keeping their original scan
order. -/
lemma take_insertionSort_filter_sublist {α : Type} (r : α → α → Prop) [DecidableRel r]
    [IsTotal α r] [IsTrans α r] (p : α → Bool) (hp : ∀ a b, p a → p b → r a b)
    (l : List α) (n : ℕ) :
    List.Sublist (((l.insertionSort r).take n).filter p) (l.filter p) := by
  have hpw : (l.filter p).Pairwise r :=
    List.pairwise_of_forall_mem_list fun a ha b hb =>
      hp a b (List.of_mem_filter ha) (List.of_mem_filter hb)
  have h1 : List.Sublist (l.filter p) (l.insertionSort r) :=
    List.sublist_insertionSort hpw (List.filter_sublist l)
  have h2 : List.Sublist (l.filter p) ((l.insertionSort r).filter p) := by
    have h := h1.filter p
    simpa [List.filter_filter] using h
  have hlen : ((l.insertionSort r).filter p).length = (l.filter p).length :=
    ((List.perm_insertionSort r l).filter p).length_eq
  have heq : l.filter p = (l.insertionSort r).filter p := h2.eq_of_length hlen.symm
  have h3 : List.Sublist (((l.insertionSort r).take n).filter p) ((l.insertionSort r).filter p) :=
    (List.take_sublist n _).filter p
  rw [← heq] at h3
  exact h3

/-! ## C1 — parse failure falls back on the response text -/

/-- C1 counterexample.  Catalog `db1`, product description "phone", model
output "@@@@" (no brace span, not valid JSON, so both parse stages fail and
the parse outcome is `none`).  The code hands the raw response text to
`_fallback_keyword_match`, which shares no word with the catalog and yields
`[]`, while the Fallback Matcher on the product description "phone" yields
one match — so the result list does not equal the Fallback Matcher output
for the same product description, refuting the claim. -/
theorem classify_parse_failure_cex :
    (classify db1 true (fun _ _ => some "@@@@") (fun _ => none) "phone" 5).1.length = 0 ∧
    (fallback_keyword_match db1 "phone" 5).length = 1 ∧
    (classify db1 true (fun _ _ => some "@@@@") (fun _ => none) "phone" 5).1 ≠
      fallback_keyword_match db1 "phone" 5 := by
  have h0 : (classify db1 true (fun _ _ => some "@@@@") (fun _ => none) "phone" 5).1.length
      = 0 := by decide
  have h1 : (fallback_keyword_match db1 "phone" 5).length = 1 := by decide
  refine ⟨h0, h1, fun h => ?_⟩
  rw [h, h1] at h0
  exact one_ne_zero h0

/-- C1 amended: when the external model call succeeds but the two-stage JSON
parse of its output fails, `classify` returns exactly the Fallback Matcher
output computed on the RAW MODEL RESPONSE TEXT (with the full catalog and
the same `top_n`) — not on the original product description. -/
theorem classify_parse_failure_eq_fallback_on_raw
    (db : List HSEntry) (llm : String → String → Option String)
    (parse_json : String → Option (List LLMMatch)) (desc raw : String) (top_n : ℕ)
    (hdb : db ≠ []) (hdesc : isBlank desc = false)
    (hllm : llm system_prompt
      (build_user_prompt desc (create_knowledge_sample db 120) top_n) = some raw)
    (hparse : parse_json raw = none) :
    (classify db true llm parse_json desc top_n).1 =
      fallback_keyword_match db raw top_n := by
  simp [classify, hdb, hdesc, hllm, hparse, parse_llm_response]

/-- C1 amended, witnessed at `db1` with the unparseable output "@@@@". -/
theorem classify_parse_failure_eq_fallback_on_raw_witness :
    (classify db1 true (fun _ _ => some "@@@@") (fun _ => none) "phone" 5).1 =
      fallback_keyword_match db1 "@@@@" 5 :=
  classify_parse_failure_eq_fallback_on_raw db1 (fun _ _ => some "@@@@") (fun _ => none)
    "phone" "@@@@" 5 (by decide) (by decide) rfl rfl

/-! ## C2 — knowledge sampler has no budget stop -/

/-- C2 counterexample.  A catalog of 121 entries with budget 120 gives
stride `121 // 120 = 1`, and the comprehension
`[db[i] for i in range(0, 121, 1)]` returns all 121 entries: the code never
stops after `budget` entries, so the sample has 121 elements, not
`min(budget, computed_count) = 120` as claimed. -/
theorem create_knowledge_sample_budget_cex :
    120 < db121.length ∧
    (create_knowledge_sample db121 120).length = 121 ∧
    ¬ ((create_knowledge_sample db121 120).length ≤ 120) := by
  refine ⟨by decide, by decide, ?_⟩
  have h : (create_knowledge_sample db121 120).length = 121 := by decide
  omega

/-- C2 amended: for `budget ≥ 1`, a catalog fitting within the budget is
returned whole in original order; a larger catalog is sampled at stride
`len // budget` taking indices `0, stride, 2*stride, ...` through the END
of the list — `(len + stride - 1) / stride` entries in total, which can
exceed the budget since there is no budget stop — the k-th sampled entry
being the source entry at index `k * stride`, so source indices are
strictly increasing. -/
theorem create_knowledge_sample_spec (db : List HSEntry) (budget : ℕ) (hb : 1 ≤ budget) :
    (db.length ≤ budget → create_knowledge_sample db budget = db) ∧
    (budget < db.length →
      1 ≤ db.length / budget ∧
      (create_knowledge_sample db budget).length =
        (db.length + db.length / budget - 1) / (db.length / budget) ∧
      ∀ k, k < (db.length + db.length / budget - 1) / (db.length / budget) →
        (create_knowledge_sample db budget)[k]? = db[k * (db.length / budget)]?) := by
  constructor
  · intro hle
    simp [create_knowledge_sample, hle]
  · intro hlt
    have hstep : 1 ≤ db.length / budget :=
      (Nat.one_le_div_iff (Nat.lt_of_lt_of_le Nat.zero_lt_one hb)).2 (Nat.le_of_lt hlt)
    have hkey : ∀ k, k < (db.length + db.length / budget - 1) / (db.length / budget) →
        k * (db.length / budget) < db.length := by
      intro k hk
      have h2 : (k + 1) * (db.length / budget) ≤ db.length + db.length / budget - 1 :=
        (Nat.le_div_iff_mul_le hstep).1 hk
      rw [Nat.succ_mul] at h2
      have hlen1 : 1 ≤ db.length := Nat.le_trans hb (Nat.le_of_lt hlt)
      omega
    have hunfold : create_knowledge_sample db budget =
        (List.range ((db.length + db.length / budget - 1) / (db.length / budget))).filterMap
          (fun k => db[k * (db.length / budget)]?) := by
      simp [create_knowledge_sample, Nat.not_le.2 hlt]
    have hmap : (List.range ((db.length + db.length / budget - 1) /
          (db.length / budget))).filterMap (fun k => db[k * (db.length / budget)]?) =
        (List.range ((db.length + db.length / budget - 1) / (db.length / budget))).map
          (fun k => (db[k * (db.length / budget)]?).getD default) := by
      refine filterMap_eq_map_of_some _ _ _ fun k hk => ?_
      have hklt := hkey k (List.mem_range.1 hk)
      simp [List.getElem?_eq_getElem hklt]
    refine ⟨hstep, ?_, ?_⟩
    · rw [hunfold, hmap, List.length_map, List.length_range]
    · intro k hk
      rw [hunfold, hmap, List.getElem?_map, List.getElem?_range hk]
      have hklt := hkey k hk
      simp [List.getElem?_eq_getElem hklt]

/-- C2 amended, witnessed at the 121-entry catalog with budget 120:
stride 1, 121 sampled entries, and the sixth sampled entry is the source
entry at index 5. -/
theorem create_knowledge_sample_spec_witness :
    (create_knowledge_sample db121 120).length =
      (db121.length + db121.length / 120 - 1) / (db121.length / 120) ∧
    (create_knowledge_sample db121 120)[5]? = db121[5 * (db121.length / 120)]? := by
  have h := (create_knowledge_sample_spec db121 120 (by norm_num)).2 (by decide)
  exact ⟨h.2.1, h.2.2 5 (by decide)⟩

/-! ## C3 — empty-description short-circuit exists only on the reasoning path -/

/-- C3 counterexample.  The embedding path has no empty-description guard:
with a one-row catalog, `classify_hs` on the EMPTY description still
performs its external embedding-model invocation (call count 1, not 0) and
returns a non-empty ranking, refuting the claim for the embedding path. -/
theorem classify_hs_empty_desc_cex :
    ((classify_hs (fun _ => [(1 : ℚ)]) dotQ "" [⟨"0101", "live horses", [1]⟩] 5).1.map
      (fun r => (r.1, r.2.1))) = [("0101", "live horses")] ∧
    (classify_hs (fun _ => [(1 : ℚ)]) dotQ "" [⟨"0101", "live horses", [1]⟩] 5).1 ≠ [] ∧
    (classify_hs (fun _ => [(1 : ℚ)]) dotQ "" [⟨"0101", "live horses", [1]⟩] 5).2 = 1 := by
  have hlen : (classify_hs (fun _ => [(1 : ℚ)]) dotQ "" [⟨"0101", "live horses", [1]⟩] 5).1.length
      = 1 := by decide
  refine ⟨rfl, fun h => ?_, rfl⟩
  rw [h] at hlen
  exact one_ne_zero hlen.symm

/-- C3 amended: the REASONING path short-circuits an empty or
whitespace-only description to an empty result with zero external
text-generation invocations; the EMBEDDING path has no such guard —
`classify_hs` performs its external embedding invocation for every
description, including the empty one. -/
theorem empty_description_shortcircuit :
    (∀ (db : List HSEntry) (hc : Bool) (llm : String → String → Option String)
      (parse_json : String → Option (List LLMMatch)) (desc : String) (n : ℕ),
      isBlank desc = true → classify db hc llm parse_json desc n = ([], 0)) ∧
    (∀ (encode : String → List ℚ) (sim : List ℚ → List ℚ → ℚ)
      (entries : List EmbEntry) (desc : String) (n : ℕ),
      (classify_hs encode sim desc entries n).2 = 1) := by
  constructor
  · intro db hc llm pj desc n hblank
    unfold classify
    split
    · rfl
    · split
      · rfl
      · simp [hblank]
  · intro encode sim entries desc n
    rfl

/-- C3 amended, witnessed on a whitespace-only description: the reasoning
path returns an empty result and makes no external call even though the
catalog is non-empty and a client is configured. -/
theorem empty_description_shortcircuit_witness :
    classify db1 true (fun _ _ => some "x") (fun _ => none) "  " 5 = ([], 0) :=
  empty_description_shortcircuit.1 db1 true (fun _ _ => some "x") (fun _ => none)
    "  " 5 (by decide)

/-! ## C4 — confidence is coerced but never clamped -/

/-- C4 counterexample.  A parsed match carrying confidence 3/2 is returned
with confidence 3/2: the code applies `float(confidence)` without any
clamping, so the returned confidence lies outside [0, 1], refuting the
claim. -/
theorem confidence_not_clamped_cex :
    ((parse_llm_response db1
        (some [(⟨some "8518300000", some (3/2), some "r"⟩ : LLMMatch)]) "x" 5).map
      HSResult.confidence) = [(3/2 : ℚ)] ∧ ¬ ((3/2 : ℚ) ≤ 1) :=
  ⟨rfl, by norm_num⟩

/-- C4 amended: each parsed match's confidence value is passed through
unchanged — there is no clamping to [0, 1] — and a match with no confidence
field is assigned 1/2.  The k-th result of a successful parse corresponds
to the k-th of the first `top_n` matches and carries exactly that match's
confidence-or-default. -/
theorem confidence_coercion_spec (db : List HSEntry) (ms : List LLMMatch) (raw : String)
    (n k : ℕ) (hk : k < (parse_llm_response db (some ms) raw n).length) :
    ∃ m : LLMMatch, (ms.take n)[k]? = some m ∧
      ((parse_llm_response db (some ms) raw n)[k]?).map HSResult.confidence =
        some (m.confidence.getD (1/2)) ∧
      (m.confidence = none →
        ((parse_llm_response db (some ms) raw n)[k]?).map HSResult.confidence =
          some (1/2 : ℚ)) := by
  have hk' : k < (ms.take n).length := by
    simpa [parse_llm_response, List.length_map] using hk
  have hmap : (parse_llm_response db (some ms) raw n)[k]? =
      some (enrichMatch db ((ms.take n).get ⟨k, hk'⟩)) := by
    show ((ms.take n).map (enrichMatch db))[k]? = _
    rw [List.getElem?_map, List.getElem?_eq_getElem hk']
    rfl
  refine ⟨(ms.take n).get ⟨k, hk'⟩, List.getElem?_eq_getElem hk', ?_, ?_⟩
  · rw [hmap]
    rfl
  · intro hnone
    rw [hmap]
    have hconf : (enrichMatch db ((ms.take n).get ⟨k, hk'⟩)).confidence =
        ((ms.take n).get ⟨k, hk'⟩).confidence.getD (1/2) := rfl
    simp only [Option.map_some', hconf, hnone, Option.getD_none]

/-- C4 amended, witnessed on a match with no confidence field: the returned
confidence is the default 1/2. -/
theorem confidence_coercion_spec_witness :
    ((parse_llm_response db1
        (some [(⟨some "8518300000", none, none⟩ : LLMMatch)]) "x" 5)[0]?).map
      HSResult.confidence = some (1/2 : ℚ) := by
  obtain ⟨m, h1, _h2, h3⟩ := confidence_coercion_spec db1
    [(⟨some "8518300000", none, none⟩ : LLMMatch)] "x" 5 0 (by decide)
  have hm : (⟨some "8518300000", none, none⟩ : LLMMatch) = m := by
    simpa using h1
  exact h3 (by rw [← hm])

/-! ## C5 — truncation and ordering of returned results -/

lemma classify_results_length_le (db : List HSEntry) (hc : Bool)
    (llm : String → String → Option String) (pj : String → Option (List LLMMatch))
    (d : String) (n : ℕ) : (classify db hc llm pj d n).1.length ≤ n := by
  unfold classify
  split
  · simp
  · split
    · simp
    · split
      · simp
      · cases h : llm system_prompt (build_user_prompt d (create_knowledge_sample db 120) n) with
        | none => simp [h]
        | some raw =>
          simp only [h]
          exact parse_llm_response_length_le db (pj raw) raw n

/-- C5 counterexample.  When the JSON parse succeeds, `_parse_llm_response`
truncates the matches to `top_n` but never re-sorts them: a model output
listing confidences 3/10 then 9/10 is returned in that order, so the
reasoning-path result list is NOT sorted by confidence descending. -/
theorem reasoning_results_not_sorted_cex :
    ((classify db1 true (fun _ _ => some "x")
        (fun _ => some [(⟨some "1", some (3/10), some "a"⟩ : LLMMatch),
          (⟨some "2", some (9/10), some "b"⟩ : LLMMatch)])
        "phone" 5).1.map HSResult.confidence) = [(3/10 : ℚ), (9/10 : ℚ)] ∧
    ¬ List.Pairwise (fun a b : HSResult => b.confidence ≤ a.confidence)
      (classify db1 true (fun _ _ => some "x")
        (fun _ => some [(⟨some "1", some (3/10), some "a"⟩ : LLMMatch),
          (⟨some "2", some (9/10), some "b"⟩ : LLMMatch)])
        "phone" 5).1 := by
  refine ⟨rfl, fun hpw => ?_⟩
  have hlist : (classify db1 true (fun _ _ => some "x")
      (fun _ => some [(⟨some "1", some (3/10), some "a"⟩ : LLMMatch),
        (⟨some "2", some (9/10), some "b"⟩ : LLMMatch)])
      "phone" 5).1 =
      [enrichMatch db1 (⟨some "1", some (3/10), some "a"⟩ : LLMMatch),
       enrichMatch db1 (⟨some "2", some (9/10), some "b"⟩ : LLMMatch)] := rfl
  rw [hlist] at hpw
  have h1 := (List.pairwise_cons.1 hpw).1 _ (List.mem_singleton_self _)
  have h2 : (9/10 : ℚ) ≤ 3/10 := h1
  norm_num at h2

/-- C5 amended: every path returns at most `top_n` results; the embedding
path result is sorted by similarity descending and the fallback result by
confidence descending, in both cases with tied sort keys keeping their
catalog-scan order (the sorts are stable); but the REASONING success path
returns the parsed matches in the order the model produced them, truncated
to `top_n`, without re-sorting by confidence. -/
theorem classify_ordering_spec :
    (∀ (db : List HSEntry) (hc : Bool) (llm : String → String → Option String)
      (pj : String → Option (List LLMMatch)) (d : String) (n : ℕ),
      (classify db hc llm pj d n).1.length ≤ n) ∧
    (∀ (db : List HSEntry) (d : String) (n : ℕ),
      (fallback_keyword_match db d n).length ≤ n) ∧
    (∀ (encode : String → List ℚ) (sim : List ℚ → List ℚ → ℚ) (d : String)
      (entries : List EmbEntry) (n : ℕ),
      (classify_hs encode sim d entries n).1.length = min n entries.length) ∧
    (∀ (encode : String → List ℚ) (sim : List ℚ → List ℚ → ℚ) (d : String)
      (entries : List EmbEntry) (n : ℕ),
      List.Pairwise (fun a b : String × String × ℚ => b.2.2 ≤ a.2.2)
        (classify_hs encode sim d entries n).1) ∧
    (∀ (encode : String → List ℚ) (sim : List ℚ → List ℚ → ℚ) (d : String)
      (entries : List EmbEntry) (n : ℕ) (v : ℚ),
      List.Sublist
        ((classify_hs encode sim d entries n).1.filter (fun x => decide (x.2.2 = v)))
        ((entries.map
            (fun e => (e.htsno, e.description, sim (encode d) e.embedding))).filter
          (fun x => decide (x.2.2 = v)))) ∧
    (∀ (db : List HSEntry) (d : String) (n : ℕ),
      List.Pairwise (fun a b : HSResult => b.confidence ≤ a.confidence)
        (fallback_keyword_match db d n)) ∧
    (∀ (db : List HSEntry) (d : String) (n : ℕ) (s : ℕ),
      List.Sublist
        ((((((db.map (fun e => (e, overlapCount d e.description))).filter
              (fun p => decide (0 < p.2))).insertionSort scoreDescR).take n).filter
          (fun p => decide (p.2 = s))))
        (((db.map (fun e => (e, overlapCount d e.description))).filter
            (fun p => decide (0 < p.2))).filter (fun p => decide (p.2 = s)))) ∧
    (∀ (db : List HSEntry) (llm : String → String → Option String)
      (pj : String → Option (List LLMMatch)) (d raw : String) (n : ℕ)
      (ms : List LLMMatch),
      db ≠ [] → isBlank d = false →
      llm system_prompt (build_user_prompt d (create_knowledge_sample db 120) n) =
        some raw →
      pj raw = some ms →
      (classify db true llm pj d n).1 = (ms.take n).map (enrichMatch db)) := by
  refine ⟨classify_results_length_le, fallback_keyword_match_length_le, ?_, ?_, ?_, ?_, ?_, ?_⟩
  · intro encode sim d entries n
    simp [classify_hs]
  · intro encode sim d entries n
    have hs := List.sorted_insertionSort simDescR
      (entries.map (fun e => (e.htsno, e.description, sim (encode d) e.embedding)))
    exact List.Pairwise.sublist (List.take_sublist n _) hs
  · intro encode sim d entries n v
    exact take_insertionSort_filter_sublist simDescR (fun x => decide (x.2.2 = v))
      (fun a b ha hb => le_of_eq ((of_decide_eq_true hb).trans (of_decide_eq_true ha).symm))
      _ n
  · intro db d n
    rw [fallback_keyword_match, List.pairwise_map]
    refine List.Pairwise.sublist (List.take_sublist n _) ?_
    refine (List.sorted_insertionSort scoreDescR _).imp ?_
    intro p q hpq
    exact min_le_min le_rfl
      (mul_le_mul_of_nonneg_right (Nat.cast_le.2 hpq) (by norm_num))
  · intro db d n s
    exact take_insertionSort_filter_sublist scoreDescR (fun p => decide (p.2 = s))
      (fun a b ha hb => le_of_eq ((of_decide_eq_true hb).trans (of_decide_eq_true ha).symm))
      _ n
  · intro db llm pj d raw n ms hdb hblank hllm hparse
    simp [classify, hdb, hblank, hllm, hparse, parse_llm_response]

/-- C5 amended, witnessed on the reasoning success path: the two parsed
matches come back enriched in model order, truncated to `top_n = 5`. -/
theorem classify_ordering_spec_witness :
    (classify db1 true (fun _ _ => some "x")
        (fun _ => some [(⟨some "1", some (3/10), some "a"⟩ : LLMMatch),
          (⟨some "2", some (9/10), some "b"⟩ : LLMMatch)])
        "phone" 5).1 =
      (([(⟨some "1", some (3/10), some "a"⟩ : LLMMatch),
        (⟨some "2", some (9/10), some "b"⟩ : LLMMatch)].take 5).map (enrichMatch db1)) :=
  classify_ordering_spec.2.2.2.2.2.2.2 db1 (fun _ _ => some "x")
    (fun _ => some [(⟨some "1", some (3/10), some "a"⟩ : LLMMatch),
      (⟨some "2", some (9/10), some "b"⟩ : LLMMatch)])
    "phone" "x" 5
    [(⟨some "1", some (3/10), some "a"⟩ : LLMMatch),
     (⟨some "2", some (9/10), some "b"⟩ : LLMMatch)]
    (by decide) (by decide) rfl rfl

/-! ## C6 — fallback confidence formula, cap, marker, and empty result -/

/-- C6: every Fallback Matcher result carries the fixed reasoning marker and
confidence `min(0.5, overlap * 0.1)` for its originating catalog entry —
hence always at most 0.5 — and a description sharing zero lowercased words
with every catalog description yields an empty result list. -/
theorem fallback_match_spec (db : List HSEntry) (d : String) (n : ℕ) :
    (∀ r ∈ fallback_keyword_match db d n,
      r.reasoning = "Keyword-based match (fallback)" ∧ r.confidence ≤ 1/2 ∧
      ∃ e ∈ db, r.hs_code = e.htsno ∧ r.description = e.description ∧
        r.confidence = min (1/2 : ℚ) ((overlapCount d e.description : ℚ) * (1/10))) ∧
    ((∀ e ∈ db, overlapCount d e.description = 0) →
      fallback_keyword_match db d n = []) := by
  constructor
  · intro r hr
    obtain ⟨p, hp, rfl⟩ := List.mem_map.1 hr
    have hp1 : p ∈ ((db.map (fun e => (e, overlapCount d e.description))).filter
        (fun q => decide (0 < q.2))).insertionSort scoreDescR :=
      (List.take_sublist n _).subset hp
    have hp2 := (List.mem_insertionSort (r := scoreDescR)).1 hp1
    have hp3 := (List.mem_filter.1 hp2).1
    obtain ⟨e, he, hpe⟩ := List.mem_map.1 hp3
    refine ⟨rfl, min_le_left _ _, e, he, ?_, ?_, ?_⟩
    · rw [← hpe]
    · rw [← hpe]
    · rw [← hpe]
  · intro hzero
    have hfilter : (db.map (fun e => (e, overlapCount d e.description))).filter
        (fun q => decide (0 < q.2)) = [] := by
      rw [List.filter_eq_nil_iff]
      intro a ha
      obtain ⟨e, he, hae⟩ := List.mem_map.1 ha
      rw [← hae]
      simp [hzero e he]
    simp [fallback_keyword_match, hfilter]

/-- C6, witnessed at `db1`: the single "phone" match carries the marker and
the capped confidence, and the zero-overlap description "zzz" yields no
result. -/
theorem fallback_match_spec_witness :
    ({ hs_code := "8518300000", description := "phone device",
       confidence := min (1/2 : ℚ) ((overlapCount "phone" "phone device" : ℚ) * (1/10)),
       reasoning := "Keyword-based match (fallback)" } : HSResult).confidence ≤ 1/2 ∧
    fallback_keyword_match db1 "zzz" 5 = [] := by
  have hlist : fallback_keyword_match db1 "phone" 5 =
      [({ hs_code := "8518300000", description := "phone device",
          confidence := min (1/2 : ℚ) ((overlapCount "phone" "phone device" : ℚ) * (1/10)),
          reasoning := "Keyword-based match (fallback)" } : HSResult)] := rfl
  have hmem : ({ hs_code := "8518300000", description := "phone device",
                 confidence := min (1/2 : ℚ)
                   ((overlapCount "phone" "phone device" : ℚ) * (1/10)),
                 reasoning := "Keyword-based match (fallback)" } : HSResult) ∈
      fallback_keyword_match db1 "phone" 5 := by
    rw [hlist]
    exact List.mem_singleton_self _
  exact ⟨((fallback_match_spec db1 "phone" 5).1 _ hmem).2.1,
    (fallback_match_spec db1 "zzz" 5).2 (by decide)⟩

/-! ## C7 — only one of the two loaders filters empty descriptions -/

/-- C7 counterexample.  `_load_hts_database` returns the parsed file
contents unchanged: an entry whose description is the empty string survives
loading there, so it is not the case that every loaded sequence contains
only entries with non-empty descriptions. -/
theorem llm_loader_keeps_empty_description_cex :
    load_hts_database (some [(⟨some "0101", some ""⟩ : RawItem)]) =
      [(⟨some "0101", some ""⟩ : RawItem)] ∧
    ((⟨some "0101", some ""⟩ : RawItem)).description = some "" :=
  ⟨rfl, rfl⟩

/-- C7 amended: the data_collection loader `load_hts_data` drops every entry
whose description is missing or empty — each of its loaded entries has a
non-empty description — but the classifier loader `_load_hts_database`
performs no filtering: on a successful read it returns the parsed entries
unchanged, empty descriptions included. -/
theorem loader_spec :
    (∀ (hts_data : List RawItem) (e : LoadedEntry), e ∈ load_hts_data hts_data →
      e.description ≠ "") ∧
    (∀ parsed : List RawItem, load_hts_database (some parsed) = parsed) := by
  constructor
  · intro raw e he
    obtain ⟨item, hitem, rfl⟩ := List.mem_map.1 he
    have h := (List.mem_filter.1 hitem).2
    exact of_decide_eq_true h
  · intro parsed
    rfl

/-- C7 amended, witnessed on a three-entry source with one kept entry. -/
theorem loader_spec_witness :
    load_hts_data [(⟨some "1", some "ok"⟩ : RawItem), (⟨some "2", some ""⟩ : RawItem),
      (⟨none, none⟩ : RawItem)] = [(⟨some "1", "ok"⟩ : LoadedEntry)] ∧
    ((⟨some "1", "ok"⟩ : LoadedEntry)).description ≠ "" := by
  refine ⟨by decide, ?_⟩
  exact loader_spec.1 [(⟨some "1", some "ok"⟩ : RawItem), (⟨some "2", some ""⟩ : RawItem),
    (⟨none, none⟩ : RawItem)] (⟨some "1", "ok"⟩ : LoadedEntry) (by decide)

/-! ## C8 — empty catalog degrades to an empty result on both paths -/

/-- C8: with an empty catalog every path returns the empty list for any
description and any `top_n`, and — the functions being total — no
exception arises: the reasoning path returns `([], 0)` before any external
call, `classify_hs` over zero entries ranks nothing, and
`TradeAgent.classify_product` short-circuits. -/
theorem empty_catalog_returns_empty :
    (∀ (hc : Bool) (llm : String → String → Option String)
      (pj : String → Option (List LLMMatch)) (d : String) (n : ℕ),
      classify [] hc llm pj d n = ([], 0)) ∧
    (∀ (encode : String → List ℚ) (sim : List ℚ → List ℚ → ℚ) (d : String) (n : ℕ),
      (classify_hs encode sim d [] n).1 = []) ∧
    (∀ (encode : String → List ℚ) (sim : List ℚ → List ℚ → ℚ) (d : String) (n : ℕ),
      classify_product encode sim d [] n = []) := by
  refine ⟨fun hc llm pj d n => rfl, fun encode sim d n => ?_, fun encode sim d n => rfl⟩
  simp [classify_hs]

/-! ## C9 — embedding-path scores, codes, and clamping -/

/-- C9 counterexample.  `[1]` and `[-1]` are unit vectors, and the cosine
similarity of unit vectors equals their dot product, here `-1`.  The
embedding path returns that entry with score `-1`, which does not lie in
[0, 1]: cosine similarity of normalized vectors ranges over [-1, 1] and
the code does not restrict it further. -/
theorem embedding_score_negative_cex :
    ((classify_hs (fun _ => [(1 : ℚ)]) dotQ "copper wire"
        [⟨"7408", "copper wire", [-1]⟩] 5).1.map (fun r => r.2.2)) = [dotQ [1] [-1]] ∧
    dotQ [1] [-1] < 0 := by
  refine ⟨rfl, ?_⟩
  norm_num [dotQ]

/-- C9 amended: each embedding-path result's code and description come from
a catalog entry (so returned codes exist in the catalog), the number of
results is `min(top_n, catalog size)` — the claimed clamping — and whenever
the external similarity function is a genuine cosine, valued in [-1, 1],
every returned score lies in [-1, 1] (not necessarily in [0, 1]). -/
theorem embedding_results_spec (encode : String → List ℚ) (sim : List ℚ → List ℚ → ℚ)
    (d : String) (entries : List EmbEntry) (n : ℕ)
    (hsim : ∀ a b, -1 ≤ sim a b ∧ sim a b ≤ 1) :
    (∀ r ∈ (classify_hs encode sim d entries n).1,
      (-1 ≤ r.2.2 ∧ r.2.2 ≤ 1) ∧
      ∃ e ∈ entries, r.1 = e.htsno ∧ r.2.1 = e.description) ∧
    (classify_hs encode sim d entries n).1.length = min n entries.length := by
  constructor
  · intro r hr
    have hr1 : r ∈ (entries.map
        (fun e => (e.htsno, e.description, sim (encode d) e.embedding))).insertionSort
          simDescR :=
      (List.take_sublist n _).subset hr
    have hr2 := (List.mem_insertionSort (r := simDescR)).1 hr1
    obtain ⟨e, he, hre⟩ := List.mem_map.1 hr2
    rw [← hre]
    exact ⟨hsim _ _, e, he, rfl, rfl⟩
  · simp [classify_hs]

/-- C9 amended, witnessed with the constant similarity 0 (a bounded cosine
stand-in): one catalog row, `top_n = 3`, one result. -/
theorem embedding_results_spec_witness :
    (classify_hs (fun _ => ([] : List ℚ)) (fun _ _ => (0 : ℚ)) "x"
      [⟨"0101", "live horses", []⟩] 3).1.length = min 3 1 :=
  (embedding_results_spec (fun _ => ([] : List ℚ)) (fun _ _ => (0 : ℚ)) "x"
    [⟨"0101", "live horses", []⟩] 3 (fun _ _ => ⟨by norm_num, by norm_num⟩)).2

/-! ## C10 — matches without an hs_code key are preserved -/

/-- C10: a parsed match with no `hs_code` key is kept, not dropped: it is
returned with `hs_code = ""` and — whenever no catalog code is the empty
string — with description "Description not found"; the successful parse
returns exactly one result per truncated match.  Codes returned by the
reasoning path therefore need not exist in the catalog and may be empty. -/
theorem missing_hs_code_preserved (db : List HSEntry) (ms : List LLMMatch) (raw : String)
    (n : ℕ) (m : LLMMatch) (hdb : ∀ e ∈ db, e.htsno ≠ "")
    (hm : m ∈ ms.take n) (hcode : m.hs_code = none) :
    enrichMatch db m ∈ parse_llm_response db (some ms) raw n ∧
    (enrichMatch db m).hs_code = "" ∧
    (enrichMatch db m).description = "Description not found" ∧
    (parse_llm_response db (some ms) raw n).length = (ms.take n).length := by
  have h1 : m.hs_code.getD "" = "" := by rw [hcode]; rfl
  have hfind : db.find? (fun item => item.htsno == "") = none := by
    rw [List.find?_eq_none]
    intro e he
    simp [hdb e he]
  refine ⟨List.mem_map_of_mem _ hm, h1, ?_, List.length_map _ _⟩
  show (if (((db.find? (fun item => item.htsno == m.hs_code.getD "")).map
        HSEntry.description).getD "") = "" then "Description not found"
      else ((db.find? (fun item => item.htsno == m.hs_code.getD "")).map
        HSEntry.description).getD "") = "Description not found"
  rw [h1, hfind]
  rfl

/-- C10, witnessed at `db1` with a match carrying no hs_code field. -/
theorem missing_hs_code_preserved_witness :
    enrichMatch db1 (⟨none, none, some "because"⟩ : LLMMatch) ∈
      parse_llm_response db1 (some [(⟨none, none, some "because"⟩ : LLMMatch)]) "x" 5 ∧
    (enrichMatch db1 (⟨none, none, some "because"⟩ : LLMMatch)).description =
      "Description not found" := by
  have h := missing_hs_code_preserved db1 [(⟨none, none, some "because"⟩ : LLMMatch)]
    "x" 5 (⟨none, none, some "because"⟩ : LLMMatch) (by decide) (by decide) rfl
  exact ⟨h.1, h.2.2.1⟩

end TradeAgent
